import Mathlib

/-!
Verification of the turn-orchestration pipeline of the DAY14 voice-agent
repository (`src/main.py` together with the three adapter services under
`src/services/`).

The embedding follows the Python source:

* `Turn`, `ChatResponse`, `ErrorInfo` mirror the dicts / pydantic model of
  `main.py`.
* The global `chat_sessions` dict is modelled as an association list
  (`Sessions`) with `sget` (Python `dict.get(k, [])`), `setdefault`
  (Python `dict.setdefault(k, [])`) and `supdate` (the in-place mutation of
  the list obtained from `setdefault`).
* Each external provider call is a parameter: `Services` packages the three
  adapter results exactly as the orchestrator consumes them
  (`transcribe`, `get_response`, `synthesize`).
* Python's truthiness test `not s.strip()` is modelled by `isBlank`:
  a string is blank iff every character is whitespace (equivalently,
  stripping leaves the empty string).
* `agent_chat` is a pure transcription of the endpoint body of `main.py`:
  it maps the previous session store and the inbound audio
  (`none` = unreadable upload, `some []` = empty payload) to the updated
  store and the `ChatResponse`.
* The raw adapter classes (`STTService.transcribe`, `LLMService.get_response`,
  `TTSService.synthesize`) are embedded separately with the provider modelled
  as an `Except`-valued function, so that the try/except swallowing of
  provider exceptions is visible in the types.
-/

namespace Day14

/-- One utterance of a conversation: `{"role": ..., "content": ...}` in
`main.py`. -/
structure Turn where
  role : String
  content : String
deriving DecidableEq, Repr

/-- The structured error `{"stage": ..., "message": ...}` of `ChatResponse`. -/
structure ErrorInfo where
  stage : String
  message : String
deriving DecidableEq, Repr

/-- The `ChatResponse` pydantic model of `main.py`. -/
structure ChatResponse where
  transcription : String
  llm_response : String
  audioFiles : List String
  chat_history : List Turn
  error : Option ErrorInfo := none
deriving DecidableEq, Repr

/-- The global `chat_sessions` dict, as an insertion-ordered association
list from session id to turn list. -/
abbrev Sessions := List (String × List Turn)

/-- Constant `FALLBACK_TEXT` of `main.py`. -/
def FALLBACK_TEXT : String := "I\'m having trouble connecting right now."

/-- Constant `CHUNK_SIZE` of `main.py`. -/
def CHUNK_SIZE : Nat := 3000

/-- The three adapter calls as the orchestrator sees them: `transcribe`
returns the transcript text (empty on failure), `get_response` the reply
text (empty on failure), `synthesize` an audio URL or `none` on failure. -/
structure Services where
  transcribe : List Nat → String
  get_response : String → String
  synthesize : String → Option String

/-- Python `chat_sessions.get(session_id, [])`. -/
def sget (s : Sessions) (id : String) : List Turn :=
  match s.find? (fun p => p.1 == id) with
  | some p => p.2
  | none => []

/-- Whether the dict has an entry for `id`. -/
def hasKey (s : Sessions) (id : String) : Bool :=
  s.any (fun p => p.1 == id)

/-- Python `chat_sessions.setdefault(session_id, [])` (the resulting dict;
the value it hands back is `sget` of the result). -/
def setdefault (s : Sessions) (id : String) : Sessions :=
  if hasKey s id then s else s ++ [(id, [])]

/-- Overwrite the value stored under `id` (models the in-place `append`s on
the list returned by `setdefault`). -/
def supdate : Sessions → String → List Turn → Sessions
  | [], _, _ => []
  | p :: rest, id, v => if p.1 == id then (id, v) :: rest else p :: supdate rest id v

/-- Python truthiness of `s.strip()` negated: `not s.strip()` holds iff
every character of `s` is whitespace (stripping leaves nothing). -/
def isBlank (s : String) : Bool :=
  s.data.all Char.isWhitespace

/-- One line of the flattened dialog:
`("User: " if m["role"] == "user" else "AI: ") + m["content"]`. -/
def turnLine (m : Turn) : String :=
  (if m.role == "user" then "User: " else "AI: ") ++ m.content

/-- The dialog string of `main.py`:
`"\n".join(... for m in session) + "\nAI:"`. -/
def dialogFor (turns : List Turn) : String :=
  String.intercalate "\n" (turns.map turnLine) ++ "\nAI:"

/-- Fuel-driven chunking: `chunksAux fuel cs` cuts `cs` into consecutive
slices of `CHUNK_SIZE` characters as long as fuel lasts; with
`fuel ≥ cs.length` (how it is always used) the fuel never runs out. -/
def chunksAux : Nat → List Char → List (List Char)
  | 0, _ => []
  | fuel + 1, cs =>
    if cs.isEmpty then []
    else cs.take CHUNK_SIZE :: chunksAux fuel (cs.drop CHUNK_SIZE)

/-- The chunks fed to synthesis, in order: Python
`[llm_text[i:i+CHUNK_SIZE] for i in range(0, len(llm_text), CHUNK_SIZE)]`. -/
def chunkText (s : String) : List String :=
  (chunksAux s.data.length s.data).map String.mk

/-- `try_fallback_tts` of `main.py`: synthesize the fallback text, giving a
one-element list on success and the empty list on failure. -/
def try_fallback_tts (svc : Services) : List String :=
  match svc.synthesize FALLBACK_TEXT with
  | some url => [url]
  | none => []

/-- The `/agent/chat/{session_id}` endpoint body of `main.py`. The inbound
audio is `none` when `file.read()` fails, `some bytes` otherwise; an empty
byte list triggers the same `input`-stage failure (Python
`if not audio_bytes: raise ValueError(...)`). Returns the updated session
store and the response. -/
def agent_chat (svc : Services) (chat_sessions : Sessions) (session_id : String)
    (audio : Option (List Nat)) : Sessions × ChatResponse :=
  match audio with
  | none =>
    (chat_sessions,
      { transcription := "", llm_response := FALLBACK_TEXT,
        audioFiles := try_fallback_tts svc,
        chat_history := sget chat_sessions session_id,
        error := some { stage := "input", message := "read failure" } })
  | some audio_bytes =>
    if audio_bytes.isEmpty then
      (chat_sessions,
        { transcription := "", llm_response := FALLBACK_TEXT,
          audioFiles := try_fallback_tts svc,
          chat_history := sget chat_sessions session_id,
          error := some { stage := "input", message := "No audio bytes received" } })
    else
      let user_text := svc.transcribe audio_bytes
      if isBlank user_text then
        (chat_sessions,
          { transcription := "", llm_response := FALLBACK_TEXT,
            audioFiles := try_fallback_tts svc,
            chat_history := sget chat_sessions session_id,
            error := some { stage := "stt", message := "Empty transcription" } })
      else
        let sessions1 := setdefault chat_sessions session_id
        let session1 := sget sessions1 session_id ++ [{ role := "user", content := user_text }]
        let sessions2 := supdate sessions1 session_id session1
        let llm_text := svc.get_response (dialogFor session1)
        if isBlank llm_text then
          let session2 := session1 ++ [{ role := "assistant", content := FALLBACK_TEXT }]
          (supdate sessions2 session_id session2,
            { transcription := user_text, llm_response := FALLBACK_TEXT,
              audioFiles := try_fallback_tts svc,
              chat_history := session2,
              error := some { stage := "llm", message := "Empty LLM output" } })
        else
          let session2 := session1 ++ [{ role := "assistant", content := llm_text }]
          let audio_urls := (chunkText llm_text).filterMap svc.synthesize
          (supdate sessions2 session_id session2,
            { transcription := user_text, llm_response := llm_text,
              audioFiles := if audio_urls.isEmpty then try_fallback_tts svc else audio_urls,
              chat_history := session2,
              error := none })

/-- Model of `src/services/stt_service.py`, `STTService.transcribe`: the provider call
(`Transcriber().transcribe(...)`) may raise (`Except.error`) or return a
transcript whose `.text` may be null; the adapter body wraps it in
try/except returning `transcript.text or ""` on success and `""` on any
exception. The adapter itself never raises, so its result type records a
possible exception (`Except`) that is in fact never used. -/
def STTService.transcribe (provider : List Nat → Except String (Option String))
    (audio_bytes : List Nat) : Except String String :=
  match provider audio_bytes with
  | .ok t => .ok (t.getD "")
  | .error _ => .ok ""

/-- Model of `src/services/llm_service.py`, `LLMService.get_response`: `client` is
`none` when the API key was absent (then the attribute access on `None`
raises inside the try block and is swallowed); otherwise the provider call
may raise or return a possibly-null `.text`. Returns `resp.text or ""` on
success and `""` on any exception. -/
def LLMService.get_response (client : Option (String → Except String (Option String)))
    (dialog : String) : Except String String :=
  match client with
  | none => .ok ""
  | some c =>
    match c dialog with
    | .ok t => .ok (t.getD "")
    | .error _ => .ok ""

/-- The voice picked by `TTSService.synthesize`: Python
`voice_id = voice_id or self.default_voice` (defaults when the argument is
null or empty). -/
def ttsVoice (default_voice : String) (voice_id : Option String) : String :=
  match voice_id with
  | some s => if s == "" then default_voice else s
  | none => default_voice

/-- Model of `src/services/tts_service.py`, `TTSService.synthesize`: `client` is
`none` when the API key was absent (the attribute access on `None` then
raises inside the try block); the provider returns a possibly-null
`audio_file` or raises. Returns the audio reference on success and `none`
on any exception. -/
def TTSService.synthesize (client : Option (String → String → Except String (Option String)))
    (default_voice : String) (text : String) (voice_id : Option String) :
    Except String (Option String) :=
  match client with
  | none => .ok none
  | some c =>
    match c text (ttsVoice default_voice voice_id) with
    | .ok r => .ok r
    | .error _ => .ok none

/-! ### Session-store lemmas -/

theorem sget_cons (p : String × List Turn) (rest : Sessions) (id : String) :
    sget (p :: rest) id = if p.1 == id then p.2 else sget rest id := by
  unfold sget
  by_cases h : p.1 == id <;> simp [List.find?_cons, h]

theorem hasKey_cons (p : String × List Turn) (rest : Sessions) (id : String) :
    hasKey (p :: rest) id = (p.1 == id || hasKey rest id) := by
  simp [hasKey]

theorem sget_eq_nil_of_not_hasKey (s : Sessions) (id : String)
    (h : hasKey s id = false) : sget s id = [] := by
  induction s with
  | nil => rfl
  | cons p rest ih =>
    rw [hasKey_cons] at h
    rcases Bool.or_eq_false_iff.mp h with ⟨h1, h2⟩
    rw [sget_cons, if_neg (by simp [h1]), ih h2]

theorem sget_setdefault (s : Sessions) (id id' : String) :
    sget (setdefault s id) id' = sget s id' := by
  unfold setdefault
  split
  · rfl
  · rename_i hk
    unfold sget
    rw [List.find?_append]
    cases hf : s.find? (fun p => p.1 == id') with
    | some p => simp
    | none =>
      by_cases h : id == id' <;> simp [List.find?_cons, h]

theorem hasKey_setdefault (s : Sessions) (id : String) :
    hasKey (setdefault s id) id = true := by
  unfold setdefault
  split
  · assumption
  · simp [hasKey]

theorem hasKey_supdate (s : Sessions) (id' id : String) (v : List Turn) :
    hasKey (supdate s id v) id' = hasKey s id' := by
  induction s with
  | nil => rfl
  | cons p rest ih =>
    unfold supdate
    by_cases h : p.1 == id
    · have : p.1 = id := by simpa using h
      rw [if_pos h, hasKey_cons, hasKey_cons, this]
    · rw [if_neg h, hasKey_cons, hasKey_cons, ih]

theorem sget_supdate_self (s : Sessions) (id : String) (v : List Turn)
    (h : hasKey s id = true) : sget (supdate s id v) id = v := by
  induction s with
  | nil => simp [hasKey] at h
  | cons p rest ih =>
    unfold supdate
    by_cases hp : p.1 == id
    · rw [if_pos hp, sget_cons, if_pos (by simp)]
    · have hp0 : (p.1 == id) = false := by simpa using hp
      rw [hasKey_cons, hp0, Bool.false_or] at h
      rw [if_neg hp, sget_cons, if_neg (by simp_all), ih h]

theorem sget_supdate_ne (s : Sessions) (id id' : String) (v : List Turn)
    (h : ¬(id' = id)) : sget (supdate s id v) id' = sget s id' := by
  induction s with
  | nil => rfl
  | cons p rest ih =>
    unfold supdate
    by_cases hp : p.1 == id
    · have hp' : p.1 = id := by simpa using hp
      rw [if_pos hp, sget_cons, sget_cons, hp']
      have h1 : ((id : String) == id') = false := by
        simp only [beq_eq_false_iff_ne]
        exact fun h' => h h'.symm
      simp only [h1, Bool.false_eq_true, if_false]
    · rw [if_neg hp, sget_cons, sget_cons, ih]

theorem sget_double_update (s : Sessions) (sid : String) (v1 v2 : List Turn) (id : String) :
    sget (supdate (supdate (setdefault s sid) sid v1) sid v2) id =
      if id = sid then v2 else sget s id := by
  by_cases h : id = sid
  · subst h
    rw [if_pos rfl]
    exact sget_supdate_self _ _ _ (by rw [hasKey_supdate]; exact hasKey_setdefault s id)
  · rw [if_neg h, sget_supdate_ne _ _ _ _ h, sget_supdate_ne _ _ _ _ h, sget_setdefault]

/-! ### Path-characterization lemmas for `agent_chat` -/

theorem agent_chat_read_failure (svc : Services) (s : Sessions) (sid : String) :
    agent_chat svc s sid none =
      (s, { transcription := "", llm_response := FALLBACK_TEXT,
            audioFiles := try_fallback_tts svc, chat_history := sget s sid,
            error := some { stage := "input", message := "read failure" } }) := rfl

theorem agent_chat_empty_audio (svc : Services) (s : Sessions) (sid : String) :
    agent_chat svc s sid (some []) =
      (s, { transcription := "", llm_response := FALLBACK_TEXT,
            audioFiles := try_fallback_tts svc, chat_history := sget s sid,
            error := some { stage := "input", message := "No audio bytes received" } }) := rfl

theorem agent_chat_stt_failure (svc : Services) (s : Sessions) (sid : String)
    (bytes : List Nat) (hb : bytes.isEmpty = false)
    (ht : isBlank (svc.transcribe bytes) = true) :
    agent_chat svc s sid (some bytes) =
      (s, { transcription := "", llm_response := FALLBACK_TEXT,
            audioFiles := try_fallback_tts svc, chat_history := sget s sid,
            error := some { stage := "stt", message := "Empty transcription" } }) := by
  simp only [agent_chat, hb, ht, Bool.false_eq_true, if_false, if_true]

theorem agent_chat_llm_failure (svc : Services) (s : Sessions) (sid : String)
    (bytes : List Nat) (hb : bytes.isEmpty = false)
    (ht : isBlank (svc.transcribe bytes) = false)
    (hl : isBlank (svc.get_response (dialogFor
        (sget s sid ++ [⟨"user", svc.transcribe bytes⟩]))) = true) :
    agent_chat svc s sid (some bytes) =
      (supdate (supdate (setdefault s sid) sid
          (sget s sid ++ [⟨"user", svc.transcribe bytes⟩])) sid
          (sget s sid ++ [⟨"user", svc.transcribe bytes⟩, ⟨"assistant", FALLBACK_TEXT⟩]),
       { transcription := svc.transcribe bytes, llm_response := FALLBACK_TEXT,
         audioFiles := try_fallback_tts svc,
         chat_history := sget s sid ++ [⟨"user", svc.transcribe bytes⟩,
           ⟨"assistant", FALLBACK_TEXT⟩],
         error := some { stage := "llm", message := "Empty LLM output" } }) := by
  simp only [agent_chat, hb, ht, Bool.false_eq_true, if_false, sget_setdefault, hl, if_true,
    List.append_assoc, List.singleton_append, List.cons_append, List.nil_append]

theorem agent_chat_success (svc : Services) (s : Sessions) (sid : String)
    (bytes : List Nat) (hb : bytes.isEmpty = false)
    (ht : isBlank (svc.transcribe bytes) = false)
    (hl : isBlank (svc.get_response (dialogFor
        (sget s sid ++ [⟨"user", svc.transcribe bytes⟩]))) = false) :
    agent_chat svc s sid (some bytes) =
      (supdate (supdate (setdefault s sid) sid
          (sget s sid ++ [⟨"user", svc.transcribe bytes⟩])) sid
          (sget s sid ++ [⟨"user", svc.transcribe bytes⟩,
            ⟨"assistant", svc.get_response (dialogFor
              (sget s sid ++ [⟨"user", svc.transcribe bytes⟩]))⟩]),
       { transcription := svc.transcribe bytes,
         llm_response := svc.get_response (dialogFor
           (sget s sid ++ [⟨"user", svc.transcribe bytes⟩])),
         audioFiles :=
           if ((chunkText (svc.get_response (dialogFor
                (sget s sid ++ [⟨"user", svc.transcribe bytes⟩])))).filterMap
                svc.synthesize).isEmpty
           then try_fallback_tts svc
           else (chunkText (svc.get_response (dialogFor
                (sget s sid ++ [⟨"user", svc.transcribe bytes⟩])))).filterMap svc.synthesize,
         chat_history := sget s sid ++ [⟨"user", svc.transcribe bytes⟩,
           ⟨"assistant", svc.get_response (dialogFor
             (sget s sid ++ [⟨"user", svc.transcribe bytes⟩]))⟩],
         error := none }) := by
  simp only [agent_chat, hb, ht, Bool.false_eq_true, if_false, sget_setdefault, hl,
    List.append_assoc, List.singleton_append, List.cons_append, List.nil_append]

/-! ### Chunking lemmas -/

theorem chunksAux_succ (fuel : Nat) (cs : List Char) (h : cs ≠ []) :
    chunksAux (fuel + 1) cs =
      cs.take CHUNK_SIZE :: chunksAux fuel (cs.drop CHUNK_SIZE) := by
  simp [chunksAux, h]

theorem chunksAux_congr (fuel₁ : Nat) : ∀ (fuel₂ : Nat) (cs : List Char),
    cs.length ≤ fuel₁ → cs.length ≤ fuel₂ → chunksAux fuel₁ cs = chunksAux fuel₂ cs := by
  induction fuel₁ with
  | zero =>
    intro fuel₂ cs h₁ _
    have : cs = [] := List.eq_nil_of_length_eq_zero (Nat.le_zero.mp h₁)
    subst this
    cases fuel₂ <;> simp [chunksAux]
  | succ f ih =>
    intro fuel₂ cs h₁ h₂
    by_cases hcs : cs = []
    · subst hcs
      cases fuel₂ <;> simp [chunksAux]
    · have hpos : 1 ≤ cs.length := by
        cases cs with
        | nil => exact absurd rfl hcs
        | cons a t => simp
      cases fuel₂ with
      | zero => omega
      | succ f₂ =>
        rw [chunksAux_succ f cs hcs, chunksAux_succ f₂ cs hcs]
        have hd : (cs.drop CHUNK_SIZE).length ≤ f := by
          simp only [List.length_drop, CHUNK_SIZE]
          omega
        have hd₂ : (cs.drop CHUNK_SIZE).length ≤ f₂ := by
          simp only [List.length_drop, CHUNK_SIZE]
          omega
        rw [ih f₂ (cs.drop CHUNK_SIZE) hd hd₂]

theorem chunksAux_join (fuel : Nat) : ∀ (cs : List Char), cs.length ≤ fuel →
    (chunksAux fuel cs).flatten = cs := by
  induction fuel with
  | zero =>
    intro cs h
    have : cs = [] := List.eq_nil_of_length_eq_zero (Nat.le_zero.mp h)
    subst this
    rfl
  | succ f ih =>
    intro cs h
    by_cases hcs : cs = []
    · subst hcs; rfl
    · have hpos : 1 ≤ cs.length := by
        cases cs with
        | nil => exact absurd rfl hcs
        | cons a t => simp
      rw [chunksAux_succ f cs hcs]
      have hd : (cs.drop CHUNK_SIZE).length ≤ f := by
        simp only [List.length_drop, CHUNK_SIZE]
        omega
      simp only [List.flatten_cons, ih (cs.drop CHUNK_SIZE) hd, List.take_append_drop]

theorem chunksAux_chunk_le (fuel : Nat) : ∀ (cs : List Char), ∀ c ∈ chunksAux fuel cs,
    c.length ≤ CHUNK_SIZE := by
  induction fuel with
  | zero => intro cs c hc; simp [chunksAux] at hc
  | succ f ih =>
    intro cs c hc
    by_cases hcs : cs = []
    · subst hcs; simp [chunksAux] at hc
    · rw [chunksAux_succ f cs hcs] at hc
      rcases List.mem_cons.mp hc with h | h
      · subst h
        simp [List.length_take]
      · exact ih (cs.drop CHUNK_SIZE) c h

theorem chunksAux_count (fuel : Nat) : ∀ (cs : List Char), cs.length ≤ fuel →
    (chunksAux fuel cs).length = (cs.length + (CHUNK_SIZE - 1)) / CHUNK_SIZE := by
  induction fuel with
  | zero =>
    intro cs h
    have : cs = [] := List.eq_nil_of_length_eq_zero (Nat.le_zero.mp h)
    subst this
    simp [chunksAux, CHUNK_SIZE]
  | succ f ih =>
    intro cs h
    by_cases hcs : cs = []
    · subst hcs; simp [chunksAux, CHUNK_SIZE]
    · have hpos : 1 ≤ cs.length := by
        cases cs with
        | nil => exact absurd rfl hcs
        | cons a t => simp
      rw [chunksAux_succ f cs hcs]
      have hd : (cs.drop CHUNK_SIZE).length ≤ f := by
        simp only [List.length_drop, CHUNK_SIZE]
        omega
      rw [List.length_cons, ih (cs.drop CHUNK_SIZE) hd, List.length_drop]
      simp only [CHUNK_SIZE]
      omega

theorem chunksAux_nil (fuel : Nat) : chunksAux fuel [] = [] := by
  cases fuel <;> simp [chunksAux]

theorem join_map_mk (l : List (List Char)) : ∀ (acc : List Char),
    List.foldl (fun r s => r ++ s) (String.mk acc) (l.map String.mk) =
      String.mk (acc ++ l.flatten) := by
  induction l with
  | nil => intro acc; simp
  | cons a t ih =>
    intro acc
    simp only [List.map_cons, List.foldl_cons, List.flatten_cons]
    have : String.mk acc ++ String.mk a = String.mk (acc ++ a) := rfl
    rw [this, ih (acc ++ a), List.append_assoc]

theorem string_join_map_mk (l : List (List Char)) :
    String.join (l.map String.mk) = String.mk l.flatten := by
  have h0 : ("" : String) = String.mk [] := rfl
  rw [String.join, h0, join_map_mk l []]
  rfl

/-! ### Dialog-assembly lemmas -/

theorem intercalate_go_append_singleton (s b : String) :
    ∀ (as : List String) (acc : String),
      String.intercalate.go acc s (as ++ [b]) = String.intercalate.go acc s as ++ s ++ b := by
  intro as
  induction as with
  | nil => intro acc; rfl
  | cons a t ih =>
    intro acc
    exact ih (acc ++ s ++ a)

theorem dialogFor_eq_lines (turns : List Turn) (h : turns ≠ []) :
    dialogFor turns = String.intercalate "\n" (turns.map turnLine ++ ["AI:"]) := by
  cases hm : turns.map turnLine with
  | nil =>
    cases turns with
    | nil => exact absurd rfl h
    | cons a t => simp at hm
  | cons a t =>
    unfold dialogFor
    rw [hm, List.cons_append]
    show String.intercalate.go a "\n" t ++ "\nAI:" = String.intercalate.go a "\n" (t ++ ["AI:"])
    rw [intercalate_go_append_singleton, String.append_assoc]
    have hn : ("\n" : String) ++ "AI:" = "\nAI:" := by decide
    rw [hn]

/-! ### Claim theorems -/

/-- C1: for every session and every orchestration cycle that reaches the
success exit (non-blank transcription and non-blank generation), the
session's turn list after the cycle is its previous list plus exactly two
turns — the user turn carrying the transcription first, then the assistant
turn carrying the reply — so its length grows by exactly 2, the returned
snapshot is the full updated session, and the result has no error field. -/
theorem success_cycle_appends_two_turns (svc : Services) (s : Sessions) (sid : String)
    (bytes : List Nat) (hb : bytes.isEmpty = false)
    (ht : isBlank (svc.transcribe bytes) = false)
    (hl : isBlank (svc.get_response (dialogFor
        (sget s sid ++ [⟨"user", svc.transcribe bytes⟩]))) = false) :
    sget (agent_chat svc s sid (some bytes)).1 sid =
        sget s sid ++ [⟨"user", svc.transcribe bytes⟩,
          ⟨"assistant", (agent_chat svc s sid (some bytes)).2.llm_response⟩]
    ∧ (sget (agent_chat svc s sid (some bytes)).1 sid).length = (sget s sid).length + 2
    ∧ (agent_chat svc s sid (some bytes)).2.transcription = svc.transcribe bytes
    ∧ (agent_chat svc s sid (some bytes)).2.chat_history =
        sget (agent_chat svc s sid (some bytes)).1 sid
    ∧ (agent_chat svc s sid (some bytes)).2.error = none := by
  have hk : hasKey (supdate (setdefault s sid) sid
      (sget s sid ++ [⟨"user", svc.transcribe bytes⟩])) sid = true := by
    rw [hasKey_supdate]
    exact hasKey_setdefault s sid
  rw [agent_chat_success svc s sid bytes hb ht hl]
  dsimp only
  rw [sget_supdate_self _ _ _ hk]
  refine ⟨rfl, ?_, rfl, rfl, rfl⟩
  simp

theorem success_cycle_appends_two_turns_witness :
    (sget (agent_chat ⟨fun _ => "hello", fun _ => "hi there", fun _ => some "a.mp3"⟩
        [] "s1" (some [1])).1 "s1").length = (sget ([] : Sessions) "s1").length + 2
    ∧ (agent_chat ⟨fun _ => "hello", fun _ => "hi there", fun _ => some "a.mp3"⟩
        [] "s1" (some [1])).2.error = none := by
  have h := success_cycle_appends_two_turns
    ⟨fun _ => "hello", fun _ => "hi there", fun _ => some "a.mp3"⟩ [] "s1" [1]
    (by decide) (by decide) (by decide)
  exact ⟨h.2.1, h.2.2.2.2⟩

/-- C2 (corrected): when transcription succeeds but generation returns blank
text, the session grows by exactly TWO turns, not one: the user turn from
the successful transcription and then the fallback assistant turn; the
reply is the fallback text and the error is at stage `llm`. -/
theorem llm_failure_appends_user_and_fallback (svc : Services) (s : Sessions) (sid : String)
    (bytes : List Nat) (hb : bytes.isEmpty = false)
    (ht : isBlank (svc.transcribe bytes) = false)
    (hl : isBlank (svc.get_response (dialogFor
        (sget s sid ++ [⟨"user", svc.transcribe bytes⟩]))) = true) :
    sget (agent_chat svc s sid (some bytes)).1 sid =
        sget s sid ++ [⟨"user", svc.transcribe bytes⟩, ⟨"assistant", FALLBACK_TEXT⟩]
    ∧ (sget (agent_chat svc s sid (some bytes)).1 sid).length = (sget s sid).length + 2
    ∧ (agent_chat svc s sid (some bytes)).2.llm_response = FALLBACK_TEXT
    ∧ (agent_chat svc s sid (some bytes)).2.error = some ⟨"llm", "Empty LLM output"⟩
    ∧ (agent_chat svc s sid (some bytes)).2.chat_history =
        sget (agent_chat svc s sid (some bytes)).1 sid := by
  have hk : hasKey (supdate (setdefault s sid) sid
      (sget s sid ++ [⟨"user", svc.transcribe bytes⟩])) sid = true := by
    rw [hasKey_supdate]
    exact hasKey_setdefault s sid
  rw [agent_chat_llm_failure svc s sid bytes hb ht hl]
  dsimp only
  rw [sget_supdate_self _ _ _ hk]
  refine ⟨rfl, ?_, rfl, rfl, rfl⟩
  simp

theorem llm_failure_appends_user_and_fallback_witness :
    (sget (agent_chat ⟨fun _ => "hello", fun _ => "", fun _ => some "a.mp3"⟩
        [] "s1" (some [1])).1 "s1").length = (sget ([] : Sessions) "s1").length + 2
    ∧ (agent_chat ⟨fun _ => "hello", fun _ => "", fun _ => some "a.mp3"⟩
        [] "s1" (some [1])).2.llm_response = FALLBACK_TEXT := by
  have h := llm_failure_appends_user_and_fallback
    ⟨fun _ => "hello", fun _ => "", fun _ => some "a.mp3"⟩ [] "s1" [1]
    (by decide) (by decide) (by decide)
  exact ⟨h.2.1, h.2.2.1⟩

/-- C2 counterexample: at a concrete input with successful transcription
("hello") and blank generation, the session length goes from 0 to 2, not to
1 as the claim states — the user turn is also appended, not just the
fallback assistant turn. -/
theorem llm_failure_plus_one_refuted :
    (agent_chat ⟨fun _ => "hello", fun _ => "", fun _ => some "a.mp3"⟩
        [] "s" (some [1])).2.error = some ⟨"llm", "Empty LLM output"⟩
    ∧ (sget (agent_chat ⟨fun _ => "hello", fun _ => "", fun _ => some "a.mp3"⟩
        [] "s" (some [1])).1 "s").length = 2
    ∧ ¬ ((sget (agent_chat ⟨fun _ => "hello", fun _ => "", fun _ => some "a.mp3"⟩
        [] "s" (some [1])).1 "s").length = (sget ([] : Sessions) "s").length + 1) := by
  decide

/-- C3: when the transcription adapter returns empty or whitespace-only
text, the result carries a stage-`stt` error, the returned transcription is
the empty string, and the session store — hence the session's turn list —
is exactly as before the cycle (no user turn appended). -/
theorem stt_blank_leaves_session_unchanged (svc : Services) (s : Sessions) (sid : String)
    (bytes : List Nat) (hb : bytes.isEmpty = false)
    (ht : isBlank (svc.transcribe bytes) = true) :
    (agent_chat svc s sid (some bytes)).1 = s
    ∧ (agent_chat svc s sid (some bytes)).2.transcription = ""
    ∧ (agent_chat svc s sid (some bytes)).2.error = some ⟨"stt", "Empty transcription"⟩
    ∧ (agent_chat svc s sid (some bytes)).2.chat_history = sget s sid := by
  rw [agent_chat_stt_failure svc s sid bytes hb ht]
  exact ⟨rfl, rfl, rfl, rfl⟩

theorem stt_blank_leaves_session_unchanged_witness :
    (agent_chat ⟨fun _ => " ", fun _ => "x", fun _ => some "a.mp3"⟩
        ([("s1", [⟨"user", "old"⟩])] : Sessions) "s1" (some [1])).1
      = [("s1", [⟨"user", "old"⟩])]
    ∧ (agent_chat ⟨fun _ => " ", fun _ => "x", fun _ => some "a.mp3"⟩
        ([("s1", [⟨"user", "old"⟩])] : Sessions) "s1" (some [1])).2.transcription = "" := by
  have h := stt_blank_leaves_session_unchanged
    ⟨fun _ => " ", fun _ => "x", fun _ => some "a.mp3"⟩
    ([("s1", [⟨"user", "old"⟩])] : Sessions) "s1" [1] (by decide) (by decide)
  exact ⟨h.1, h.2.1⟩

/-- C4: the chunks fed to synthesis are consecutive positional slices of
the reply: concatenating them in order reproduces the reply exactly, each
chunk is at most `CHUNK_SIZE = 3000` characters long, the number of chunks
(= synthesis calls, one per chunk) is the ceiling of the reply length
divided by 3000, and a 7000-character reply yields exactly 3 chunks of
lengths 3000, 3000, 1000 in order. -/
theorem chunking_lossless_bounded_count (reply : String) :
    String.join (chunkText reply) = reply
    ∧ (∀ c ∈ chunkText reply, c.length ≤ CHUNK_SIZE)
    ∧ (chunkText reply).length = (reply.length + (CHUNK_SIZE - 1)) / CHUNK_SIZE
    ∧ (reply.length = 7000 → (chunkText reply).map String.length = [3000, 3000, 1000]) := by
  refine ⟨?_, ?_, ?_, ?_⟩
  · unfold chunkText
    rw [string_join_map_mk, chunksAux_join reply.data.length reply.data (le_refl _)]
  · intro c hc
    unfold chunkText at hc
    rcases List.mem_map.mp hc with ⟨cl, hcl, rfl⟩
    rw [String.length_mk]
    exact chunksAux_chunk_le _ _ cl hcl
  · unfold chunkText
    rw [List.length_map, chunksAux_count _ _ (le_refl _)]
    rfl
  · intro h7
    have hd : reply.data.length = 7000 := by rw [← h7]; rfl
    unfold chunkText
    rw [hd]
    have h1 : reply.data ≠ [] := by
      intro h
      rw [h] at hd
      simp at hd
    rw [show (7000 : Nat) = 6999 + 1 from rfl, chunksAux_succ _ _ h1]
    have hlen1 : (reply.data.drop CHUNK_SIZE).length = 4000 := by
      simp only [List.length_drop, CHUNK_SIZE]
      omega
    rw [chunksAux_congr 6999 4000 _ (by rw [hlen1]; omega) (by rw [hlen1])]
    have h2 : reply.data.drop CHUNK_SIZE ≠ [] := by
      intro h
      rw [h] at hlen1
      simp at hlen1
    rw [show (4000 : Nat) = 3999 + 1 from rfl, chunksAux_succ _ _ h2]
    have hlen2 : ((reply.data.drop CHUNK_SIZE).drop CHUNK_SIZE).length = 1000 := by
      simp only [List.length_drop, CHUNK_SIZE]
      omega
    rw [chunksAux_congr 3999 1000 _ (by rw [hlen2]; omega) (by rw [hlen2])]
    have h3 : (reply.data.drop CHUNK_SIZE).drop CHUNK_SIZE ≠ [] := by
      intro h
      rw [h] at hlen2
      simp at hlen2
    rw [show (1000 : Nat) = 999 + 1 from rfl, chunksAux_succ _ _ h3]
    have hlen3 : (((reply.data.drop CHUNK_SIZE).drop CHUNK_SIZE).drop CHUNK_SIZE).length = 0 := by
      simp only [List.length_drop, CHUNK_SIZE]
      omega
    rw [List.eq_nil_of_length_eq_zero hlen3, chunksAux_nil]
    have t1 : (reply.data.take CHUNK_SIZE).length = 3000 := by
      rw [List.length_take, hd]
      decide
    have t2 : ((reply.data.drop CHUNK_SIZE).take CHUNK_SIZE).length = 3000 := by
      rw [List.length_take, hlen1]
      decide
    have t3 : (((reply.data.drop CHUNK_SIZE).drop CHUNK_SIZE).take CHUNK_SIZE).length = 1000 := by
      rw [List.length_take, hlen2]
      decide
    simp only [List.map_cons, List.map_nil, String.length_mk, t1, t2, t3]

theorem chunking_lossless_bounded_count_witness :
    (chunkText (String.mk (List.replicate 7000 'a'))).map String.length = [3000, 3000, 1000] := by
  exact (chunking_lossless_bounded_count (String.mk (List.replicate 7000 'a'))).2.2.2
    (by rw [String.length_mk, List.length_replicate])

/-- C5: on a cycle that reaches chunked synthesis, if synthesis fails for
every chunk (the collected reference list is empty), the output audio list
is the fallback synthesis of the fallback text — a single reference on
success, the empty list if the fallback synthesis itself also fails — and
the structured error field is still not set. -/
theorem all_chunks_failed_fallback_no_error (svc : Services) (s : Sessions) (sid : String)
    (bytes : List Nat) (hb : bytes.isEmpty = false)
    (ht : isBlank (svc.transcribe bytes) = false)
    (hl : isBlank (svc.get_response (dialogFor
        (sget s sid ++ [⟨"user", svc.transcribe bytes⟩]))) = false)
    (hfail : (chunkText (svc.get_response (dialogFor
        (sget s sid ++ [⟨"user", svc.transcribe bytes⟩])))).filterMap svc.synthesize = []) :
    (agent_chat svc s sid (some bytes)).2.audioFiles = try_fallback_tts svc
    ∧ try_fallback_tts svc = (svc.synthesize FALLBACK_TEXT).toList
    ∧ (agent_chat svc s sid (some bytes)).2.error = none := by
  rw [agent_chat_success svc s sid bytes hb ht hl]
  dsimp only
  rw [hfail]
  refine ⟨rfl, ?_, rfl⟩
  unfold try_fallback_tts
  cases svc.synthesize FALLBACK_TEXT <;> rfl

theorem all_chunks_failed_fallback_no_error_witness :
    (agent_chat ⟨fun _ => "hello", fun _ => "hi",
        fun t => if t == FALLBACK_TEXT then some "f.mp3" else none⟩
      [] "s1" (some [1])).2.audioFiles = ["f.mp3"] := by
  have h := all_chunks_failed_fallback_no_error
    ⟨fun _ => "hello", fun _ => "hi",
      fun t => if t == FALLBACK_TEXT then some "f.mp3" else none⟩
    [] "s1" [1] (by decide) (by decide) (by decide) (by decide)
  rw [h.1]
  decide

/-- C6: a cycle whose inbound audio payload is unreadable (`none`) or empty
yields a stage-`input` error, empty transcription, the fallback text as the
reply, the best-effort fallback synthesis as the audio list, and leaves the
session store — hence the session's turn list — unchanged. -/
theorem input_failure_contract (svc : Services) (s : Sessions) (sid : String)
    (audio : Option (List Nat)) (h : audio = none ∨ audio = some []) :
    (agent_chat svc s sid audio).1 = s
    ∧ (agent_chat svc s sid audio).2.transcription = ""
    ∧ (agent_chat svc s sid audio).2.llm_response = FALLBACK_TEXT
    ∧ (agent_chat svc s sid audio).2.audioFiles = try_fallback_tts svc
    ∧ (agent_chat svc s sid audio).2.chat_history = sget s sid
    ∧ (agent_chat svc s sid audio).2.error.map ErrorInfo.stage = some "input" := by
  rcases h with h | h <;> subst h
  · rw [agent_chat_read_failure]
    exact ⟨rfl, rfl, rfl, rfl, rfl, rfl⟩
  · rw [agent_chat_empty_audio]
    exact ⟨rfl, rfl, rfl, rfl, rfl, rfl⟩

theorem input_failure_contract_witness :
    (agent_chat ⟨fun _ => "x", fun _ => "y", fun _ => none⟩ [] "s1" none).1 = []
    ∧ (agent_chat ⟨fun _ => "x", fun _ => "y", fun _ => none⟩
        [] "s1" none).2.error.map ErrorInfo.stage = some "input" := by
  have h := input_failure_contract ⟨fun _ => "x", fun _ => "y", fun _ => none⟩
    [] "s1" none (Or.inl rfl)
  exact ⟨h.1, h.2.2.2.2.2⟩

/-- C7: the flattened dialog handed to the response generator is one line
per turn in session order — `User: ` + content for user turns, `AI: ` +
content otherwise — joined by newlines and terminated by a trailing `AI:`
cue; and on a second successful cycle over the same session the generator
is fed the dialog of the previous turns including both turns recorded by
the first cycle, in their original order. -/
theorem dialog_flattening_format (turns : List Turn)
    (svc : Services) (s : Sessions) (sid : String) (b1 b2 : List Nat)
    (hne : turns ≠ [])
    (hb1 : b1.isEmpty = false)
    (ht1 : isBlank (svc.transcribe b1) = false)
    (hl1 : isBlank (svc.get_response (dialogFor
        (sget s sid ++ [⟨"user", svc.transcribe b1⟩]))) = false)
    (hb2 : b2.isEmpty = false)
    (ht2 : isBlank (svc.transcribe b2) = false)
    (hl2 : isBlank (svc.get_response (dialogFor
        (sget s sid ++ [⟨"user", svc.transcribe b1⟩,
          ⟨"assistant", svc.get_response (dialogFor
            (sget s sid ++ [⟨"user", svc.transcribe b1⟩]))⟩,
          ⟨"user", svc.transcribe b2⟩]))) = false) :
    dialogFor turns = String.intercalate "\n" (turns.map turnLine ++ ["AI:"])
    ∧ (∀ m : Turn, m.role = "user" → turnLine m = "User: " ++ m.content)
    ∧ (∀ m : Turn, m.role ≠ "user" → turnLine m = "AI: " ++ m.content)
    ∧ (agent_chat svc (agent_chat svc s sid (some b1)).1 sid (some b2)).2.llm_response =
        svc.get_response (dialogFor
          (sget s sid ++ [⟨"user", svc.transcribe b1⟩,
            ⟨"assistant", svc.get_response (dialogFor
              (sget s sid ++ [⟨"user", svc.transcribe b1⟩]))⟩,
            ⟨"user", svc.transcribe b2⟩])) := by
  refine ⟨dialogFor_eq_lines turns hne, ?_, ?_, ?_⟩
  · intro m hm
    unfold turnLine
    rw [if_pos (by simp [hm])]
  · intro m hm
    unfold turnLine
    rw [if_neg (by simp [hm])]
  · have hk1 : hasKey (supdate (setdefault s sid) sid
        (sget s sid ++ [⟨"user", svc.transcribe b1⟩])) sid = true := by
      rw [hasKey_supdate]
      exact hasKey_setdefault s sid
    have h1 := agent_chat_success svc s sid b1 hb1 ht1 hl1
    have hS1 : sget (agent_chat svc s sid (some b1)).1 sid =
        sget s sid ++ [⟨"user", svc.transcribe b1⟩,
          ⟨"assistant", svc.get_response (dialogFor
            (sget s sid ++ [⟨"user", svc.transcribe b1⟩]))⟩] := by
      rw [h1]
      dsimp only
      exact sget_supdate_self _ _ _ hk1
    have hl2' : isBlank (svc.get_response (dialogFor
        (sget (agent_chat svc s sid (some b1)).1 sid ++
          [⟨"user", svc.transcribe b2⟩]))) = false := by
      rw [hS1, List.append_assoc]
      simpa using hl2
    have h2 := agent_chat_success svc (agent_chat svc s sid (some b1)).1 sid b2 hb2 ht2 hl2'
    rw [h2]
    dsimp only
    rw [hS1, List.append_assoc]
    simp

theorem dialog_flattening_format_witness :
    dialogFor [⟨"user", "hi"⟩] = "User: hi\nAI:" := by
  have h := dialog_flattening_format [⟨"user", "hi"⟩]
    ⟨fun _ => "hello", fun _ => "ok", fun _ => some "u.mp3"⟩ [] "s1" [1] [2]
    (by decide) (by decide) (by decide) (by decide) (by decide) (by decide) (by decide)
  rw [h.1]
  decide

/-- C8: the three adapters never raise to their caller, for every provider
behaviour: `transcribe` and `get_response` always return a string — the
empty string whenever the provider raises or the client is missing — and
`synthesize` always returns a reference or `none`, `none` whenever the
provider raises or the client (credential) is absent. -/
theorem adapters_never_raise
    (sttProvider : List Nat → Except String (Option String))
    (llmClient : Option (String → Except String (Option String)))
    (ttsClient : Option (String → String → Except String (Option String)))
    (audio_bytes : List Nat) (dialog text default_voice : String)
    (voice_id : Option String) :
    (∃ r, STTService.transcribe sttProvider audio_bytes = .ok r)
    ∧ (∀ e, sttProvider audio_bytes = .error e →
        STTService.transcribe sttProvider audio_bytes = .ok "")
    ∧ (∃ r, LLMService.get_response llmClient dialog = .ok r)
    ∧ (∀ c e, llmClient = some c → c dialog = .error e →
        LLMService.get_response llmClient dialog = .ok "")
    ∧ LLMService.get_response (none : Option (String → Except String (Option String)))
        dialog = .ok ""
    ∧ (∃ r, TTSService.synthesize ttsClient default_voice text voice_id = .ok r)
    ∧ (∀ c e, ttsClient = some c →
        c text (ttsVoice default_voice voice_id) = .error e →
        TTSService.synthesize ttsClient default_voice text voice_id = .ok none)
    ∧ TTSService.synthesize (none : Option (String → String → Except String (Option String)))
        default_voice text voice_id = .ok none := by
  refine ⟨?_, ?_, ?_, ?_, rfl, ?_, ?_, rfl⟩
  · unfold STTService.transcribe
    cases sttProvider audio_bytes with
    | ok t => exact ⟨t.getD "", rfl⟩
    | error e => exact ⟨"", rfl⟩
  · intro e he
    unfold STTService.transcribe
    rw [he]
  · cases llmClient with
    | none => exact ⟨"", rfl⟩
    | some c =>
      cases hcd : c dialog with
      | ok t => exact ⟨t.getD "", by simp only [LLMService.get_response, hcd]⟩
      | error e => exact ⟨"", by simp only [LLMService.get_response, hcd]⟩
  · intro c e hc he
    subst hc
    simp only [LLMService.get_response, he]
  · cases ttsClient with
    | none => exact ⟨none, rfl⟩
    | some c =>
      cases hcd : c text (ttsVoice default_voice voice_id) with
      | ok r => exact ⟨r, by simp only [TTSService.synthesize, hcd]⟩
      | error e => exact ⟨none, by simp only [TTSService.synthesize, hcd]⟩
  · intro c e hc he
    subst hc
    simp only [TTSService.synthesize, he]

theorem adapters_never_raise_witness :
    STTService.transcribe (fun _ => .error "boom") [1] = .ok ""
    ∧ LLMService.get_response (some fun _ => .error "boom") "d" = .ok ""
    ∧ TTSService.synthesize (some fun _ _ => .error "boom") "en-US-natalie" "t" none
        = .ok none := by
  have h := adapters_never_raise (fun _ => .error "boom") (some fun _ => .error "boom")
    (some fun _ _ => .error "boom") [1] "d" "t" "en-US-natalie" none
  exact ⟨h.2.1 "boom" rfl, h.2.2.2.1 _ "boom" rfl rfl, h.2.2.2.2.2.2.1 _ "boom" rfl rfl⟩

/-- All turns stored in every session have non-blank content. -/
def NonBlank (s : Sessions) : Prop :=
  ∀ id, ∀ t ∈ sget s id, isBlank t.content = false

/-- C9: the cycle preserves the invariant that every stored turn has
non-blank content, and any session it changes grows exactly by a user turn
whose content is a non-blank transcription followed by an assistant turn
whose content is either the fixed fallback text (persisted even though it
signals failure) or a non-blank generated reply. -/
theorem stored_turns_never_blank (svc : Services) (s : Sessions) (sid : String)
    (audio : Option (List Nat)) (hinv : NonBlank s) :
    NonBlank (agent_chat svc s sid audio).1
    ∧ (∀ id, sget (agent_chat svc s sid audio).1 id = sget s id
        ∨ ∃ u, isBlank u = false ∧
          (sget (agent_chat svc s sid audio).1 id =
              sget s id ++ [⟨"user", u⟩, ⟨"assistant", FALLBACK_TEXT⟩]
            ∨ ∃ a, isBlank a = false ∧
              sget (agent_chat svc s sid audio).1 id =
                sget s id ++ [⟨"user", u⟩, ⟨"assistant", a⟩])) := by
  have hfb : isBlank FALLBACK_TEXT = false := by decide
  cases audio with
  | none =>
    rw [agent_chat_read_failure]
    exact ⟨hinv, fun id => Or.inl rfl⟩
  | some bytes =>
    by_cases hbe : bytes.isEmpty = true
    · have : bytes = [] := List.isEmpty_iff.mp hbe
      subst this
      rw [agent_chat_empty_audio]
      exact ⟨hinv, fun id => Or.inl rfl⟩
    · have hb : bytes.isEmpty = false := by simpa using hbe
      by_cases hbl : isBlank (svc.transcribe bytes) = true
      · rw [agent_chat_stt_failure svc s sid bytes hb hbl]
        exact ⟨hinv, fun id => Or.inl rfl⟩
      · have ht : isBlank (svc.transcribe bytes) = false := by simpa using hbl
        by_cases hgl : isBlank (svc.get_response (dialogFor
            (sget s sid ++ [⟨"user", svc.transcribe bytes⟩]))) = true
        · rw [agent_chat_llm_failure svc s sid bytes hb ht hgl]
          dsimp only
          constructor
          · intro id t htm
            rw [sget_double_update] at htm
            by_cases hid : id = sid
            · rw [if_pos hid] at htm
              rcases List.mem_append.mp htm with hold | hnew
              · exact hinv id t (by rw [hid]; exact hold)
              · simp only [List.mem_cons, List.not_mem_nil, or_false] at hnew
                rcases hnew with h | h
                · subst h; exact ht
                · subst h; exact hfb
            · rw [if_neg hid] at htm
              exact hinv id t htm
          · intro id
            by_cases hid : id = sid
            · rw [hid]
              exact Or.inr ⟨svc.transcribe bytes, ht,
                Or.inl (by rw [sget_double_update, if_pos rfl])⟩
            · exact Or.inl (by rw [sget_double_update, if_neg hid])
        · have hl : isBlank (svc.get_response (dialogFor
              (sget s sid ++ [⟨"user", svc.transcribe bytes⟩]))) = false := by
            simpa using hgl
          rw [agent_chat_success svc s sid bytes hb ht hl]
          dsimp only
          constructor
          · intro id t htm
            rw [sget_double_update] at htm
            by_cases hid : id = sid
            · rw [if_pos hid] at htm
              rcases List.mem_append.mp htm with hold | hnew
              · exact hinv id t (by rw [hid]; exact hold)
              · simp only [List.mem_cons, List.not_mem_nil, or_false] at hnew
                rcases hnew with h | h
                · subst h; exact ht
                · subst h; exact hl
            · rw [if_neg hid] at htm
              exact hinv id t htm
          · intro id
            by_cases hid : id = sid
            · rw [hid]
              exact Or.inr ⟨svc.transcribe bytes, ht, Or.inr
                ⟨svc.get_response (dialogFor
                    (sget s sid ++ [⟨"user", svc.transcribe bytes⟩])), hl,
                  by rw [sget_double_update, if_pos rfl]⟩⟩
            · exact Or.inl (by rw [sget_double_update, if_neg hid])

theorem stored_turns_never_blank_witness :
    NonBlank (agent_chat ⟨fun _ => "hello", fun _ => "ok", fun _ => some "u.mp3"⟩
      [] "s1" (some [1])).1 := by
  have h := stored_turns_never_blank
    ⟨fun _ => "hello", fun _ => "ok", fun _ => some "u.mp3"⟩ [] "s1" (some [1])
    (by intro id t htm; simp [sget] at htm)
  exact h.1

/-- C10: on a cycle that exits at the `input` or `stt` stage with a session
identifier absent from the session map, no entry is created (the map is
returned unchanged) and the returned `chat_history` is the empty list; an
entry for the identifier exists afterwards only if the cycle got past a
successful non-blank transcription (the user-turn append). -/
theorem early_exit_creates_no_session (svc : Services) (s : Sessions) (sid : String)
    (audio : Option (List Nat)) (hno : hasKey s sid = false) :
    ((audio = none ∨ audio = some []
        ∨ (∃ b, audio = some b ∧ isBlank (svc.transcribe b) = true)) →
      (agent_chat svc s sid audio).1 = s
      ∧ (agent_chat svc s sid audio).2.chat_history = [])
    ∧ (hasKey (agent_chat svc s sid audio).1 sid = true →
      ∃ b, audio = some b ∧ b.isEmpty = false ∧ isBlank (svc.transcribe b) = false) := by
  have hget : sget s sid = [] := sget_eq_nil_of_not_hasKey s sid hno
  constructor
  · intro h
    rcases h with h | h | ⟨b, h, hbl⟩
    · subst h
      rw [agent_chat_read_failure]
      exact ⟨rfl, hget⟩
    · subst h
      rw [agent_chat_empty_audio]
      exact ⟨rfl, hget⟩
    · subst h
      by_cases hbe : b.isEmpty = true
      · have : b = [] := List.isEmpty_iff.mp hbe
        subst this
        rw [agent_chat_empty_audio]
        exact ⟨rfl, hget⟩
      · have hb : b.isEmpty = false := by simpa using hbe
        rw [agent_chat_stt_failure svc s sid b hb hbl]
        exact ⟨rfl, hget⟩
  · intro hk
    cases audio with
    | none =>
      rw [agent_chat_read_failure] at hk
      exact absurd hk (by simp [hno])
    | some b =>
      by_cases hbe : b.isEmpty = true
      · have : b = [] := List.isEmpty_iff.mp hbe
        subst this
        rw [agent_chat_empty_audio] at hk
        exact absurd hk (by simp [hno])
      · have hb : b.isEmpty = false := by simpa using hbe
        by_cases hbl : isBlank (svc.transcribe b) = true
        · rw [agent_chat_stt_failure svc s sid b hb hbl] at hk
          exact absurd hk (by simp [hno])
        · exact ⟨b, rfl, hb, by simpa using hbl⟩

theorem early_exit_creates_no_session_witness :
    (agent_chat ⟨fun _ => "", fun _ => "", fun _ => none⟩ [] "s1" none).1 = []
    ∧ (agent_chat ⟨fun _ => "", fun _ => "", fun _ => none⟩
        [] "s1" none).2.chat_history = [] := by
  exact (early_exit_creates_no_session ⟨fun _ => "", fun _ => "", fun _ => none⟩
    [] "s1" none (by decide)).1 (Or.inl rfl)

end Day14
